import Mathlib

/-!
Shallow embedding of `components/performance_manager/scenarios/
loading_scenario_observer.{h,cc}` (Chromium performance_manager).

The counting core (`LoadingCounts`) keeps three `size_t` counters; arithmetic
is overflow/underflow-checked (`base::CheckAdd/CheckSub` with `ValueOrDie`,
i.e. a fatal CHECK on out-of-range). We model `size_t` as `Nat` bounded by
`sizeMax = 2^64 - 1`, and a fatal CHECK as `Option.none`. The observer's
handlers mutate the counts and publish the derived scenario through
`SetGlobalLoadingScenario`; the published cell is modelled as a field plus a
trace of the stores performed, so that "publishes once" / "does not publish"
are expressible.
-/

/-- `PageNode::LoadingState` (five variants, from page_node.h). -/
inductive LoadingState
  | kLoadingNotStarted
  | kLoading
  | kLoadingTimedOut
  | kLoadedBusy
  | kLoadedIdle
deriving DecidableEq, Repr

/-- `blink::performance_scenarios::LoadingScenario` (four variants). -/
inductive LoadingScenario
  | kNoPageLoading
  | kBackgroundPageLoading
  | kVisiblePageLoading
  | kFocusedPageLoading
deriving DecidableEq, Repr

/-- `StateIsLoading` from loading_scenario_observer.cc. -/
def stateIsLoading : LoadingState → Bool
  | .kLoadingNotStarted => false
  | .kLoadingTimedOut => false
  | .kLoadedIdle => false
  | .kLoading => true
  | .kLoadedBusy => true

/-- Maximum value of `size_t` on a 64-bit platform. -/
def sizeMax : Nat := 2 ^ 64 - 1

/-- `CheckIncrement`: increments, `none` (fatal CHECK) on overflow. -/
def checkIncrement (num : Nat) : Option Nat :=
  if num + 1 ≤ sizeMax then some (num + 1) else none

/-- `CheckDecrement`: decrements, `none` (fatal CHECK) on underflow. -/
def checkDecrement (num : Nat) : Option Nat :=
  if 1 ≤ num then some (num - 1) else none

/-- `LoadingScenarioObserver::LoadingCounts`: the three counters, all
zero-initialized (field order as in the header). -/
structure LoadingCounts where
  focused_loading_pages : Nat := 0
  visible_loading_pages : Nat := 0
  loading_pages : Nat := 0
deriving DecidableEq, Repr

/-- `LoadingCounts::GetScenario`. -/
def LoadingCounts.GetScenario (c : LoadingCounts) : LoadingScenario :=
  if c.focused_loading_pages > 0 then .kFocusedPageLoading
  else if c.visible_loading_pages > 0 then .kVisiblePageLoading
  else if c.loading_pages > 0 then .kBackgroundPageLoading
  else .kNoPageLoading

/-- `LoadingCounts::IncrementLoadingPageCounts`: checked increment of
`loading_pages`, plus `visible_loading_pages` if `visible`, plus
`focused_loading_pages` if `focused`. A trap anywhere kills the process,
modelled as `none`. -/
def LoadingCounts.IncrementLoadingPageCounts (c : LoadingCounts)
    (visible focused : Bool) : Option LoadingCounts := do
  let lp ← checkIncrement c.loading_pages
  let vp ← if visible then checkIncrement c.visible_loading_pages
           else some c.visible_loading_pages
  let fp ← if focused then checkIncrement c.focused_loading_pages
           else some c.focused_loading_pages
  some { focused_loading_pages := fp, visible_loading_pages := vp,
         loading_pages := lp }

/-- `LoadingCounts::DecrementLoadingPageCounts`: checked decrements,
symmetric to the increment. -/
def LoadingCounts.DecrementLoadingPageCounts (c : LoadingCounts)
    (visible focused : Bool) : Option LoadingCounts := do
  let lp ← checkDecrement c.loading_pages
  let vp ← if visible then checkDecrement c.visible_loading_pages
           else some c.visible_loading_pages
  let fp ← if focused then checkDecrement c.focused_loading_pages
           else some c.focused_loading_pages
  some { focused_loading_pages := fp, visible_loading_pages := vp,
         loading_pages := lp }

/-- The attributes of a `PageNode` that the observer reads. -/
structure Page where
  loadingState : LoadingState
  visible : Bool
  focused : Bool
deriving DecidableEq, Repr

/-- The observer's state: `global_counts_` plus the global published scenario
cell (`published` is its current value, `writes` the trace of stores done via
`SetGlobalLoadingScenario`). A fresh process has the cell at
`kNoPageLoading` with no stores performed. -/
structure ObserverState where
  global_counts : LoadingCounts := {}
  published : LoadingScenario := .kNoPageLoading
  writes : List LoadingScenario := []
deriving DecidableEq, Repr

/-- `SetGlobalLoadingScenario`: a relaxed atomic store to the global cell. -/
def setGlobalLoadingScenario (st : ObserverState) (s : LoadingScenario) :
    ObserverState :=
  { st with published := s, writes := st.writes ++ [s] }

/-- `LoadingScenarioObserver::UpdateGlobalScenario`. -/
def updateGlobalScenario (st : ObserverState) : ObserverState :=
  setGlobalLoadingScenario st st.global_counts.GetScenario

/-- `LoadingScenarioObserver::OnPageNodeAdded`: increment if the page is
loading; republish unconditionally. -/
def onPageNodeAdded (pg : Page) (st : ObserverState) : Option ObserverState := do
  let st1 ←
    if stateIsLoading pg.loadingState then do
      let c ← st.global_counts.IncrementLoadingPageCounts pg.visible pg.focused
      some { st with global_counts := c }
    else some st
  some (updateGlobalScenario st1)

/-- `LoadingScenarioObserver::OnBeforePageNodeRemoved`: decrement and
republish only if the page is loading. -/
def onBeforePageNodeRemoved (pg : Page) (st : ObserverState) :
    Option ObserverState :=
  if stateIsLoading pg.loadingState then do
    let c ← st.global_counts.DecrementLoadingPageCounts pg.visible pg.focused
    some (updateGlobalScenario { st with global_counts := c })
  else some st

/-- `LoadingScenarioObserver::OnIsFocusedChanged`: the page's attributes are
already the new ones; decrement with the old focus (`!focused`), increment
with the new, republish. -/
def onIsFocusedChanged (pg : Page) (st : ObserverState) : Option ObserverState :=
  if stateIsLoading pg.loadingState then do
    let c1 ← st.global_counts.DecrementLoadingPageCounts pg.visible (!pg.focused)
    let c2 ← c1.IncrementLoadingPageCounts pg.visible pg.focused
    some (updateGlobalScenario { st with global_counts := c2 })
  else some st

/-- `LoadingScenarioObserver::OnIsVisibleChanged`: symmetric to focus. -/
def onIsVisibleChanged (pg : Page) (st : ObserverState) : Option ObserverState :=
  if stateIsLoading pg.loadingState then do
    let c1 ← st.global_counts.DecrementLoadingPageCounts (!pg.visible) pg.focused
    let c2 ← c1.IncrementLoadingPageCounts pg.visible pg.focused
    some (updateGlobalScenario { st with global_counts := c2 })
  else some st

/-- `LoadingScenarioObserver::OnLoadingStateChanged`: act only when the
loading predicate flipped; then increment or decrement and republish. -/
def onLoadingStateChanged (pg : Page) (previous_state : LoadingState)
    (st : ObserverState) : Option ObserverState :=
  let is_loading := stateIsLoading pg.loadingState
  let was_loading := stateIsLoading previous_state
  if is_loading ≠ was_loading then do
    let c ←
      if is_loading then
        st.global_counts.IncrementLoadingPageCounts pg.visible pg.focused
      else
        st.global_counts.DecrementLoadingPageCounts pg.visible pg.focused
    some (updateGlobalScenario { st with global_counts := c })
  else some st

/-- The loop body of `OnPassedToGraph`: increment once per loading page. -/
def addLoadingPages : List Page → LoadingCounts → Option LoadingCounts
  | [], c => some c
  | pg :: rest, c => do
      let c1 ←
        if stateIsLoading pg.loadingState then
          c.IncrementLoadingPageCounts pg.visible pg.focused
        else some c
      addLoadingPages rest c1

/-- `LoadingScenarioObserver::OnPassedToGraph`: CHECK that the counts are
default and the published cell is `kNoPageLoading`, count every loading page
of the existing population, publish once. -/
def onPassedToGraph (pop : List Page) (st : ObserverState) :
    Option ObserverState :=
  if st.global_counts = ({} : LoadingCounts) ∧
      st.published = LoadingScenario.kNoPageLoading then do
    let c ← addLoadingPages pop st.global_counts
    some (updateGlobalScenario { st with global_counts := c })
  else none

/-- `LoadingScenarioObserver::OnTakenFromGraph`: reset the counts and
republish. Never traps. -/
def onTakenFromGraph (st : ObserverState) : ObserverState :=
  updateGlobalScenario { st with global_counts := {} }

/-- An event on the page graph, carrying what the graph mutates before it
notifies the observer. Indices refer to the current population list. -/
inductive PageEvent
  | addPage (pg : Page)
  | removePage (i : Nat)
  | toggleFocused (i : Nat)
  | toggleVisible (i : Nat)
  | setLoadingState (i : Nat) (s : LoadingState)
deriving DecidableEq, Repr

/-- The page graph's population together with the observer. -/
structure SystemState where
  pop : List Page
  obs : ObserverState
deriving DecidableEq, Repr

/-- One graph mutation followed by its observer notification. Attribute
changes are applied to the page first; the handler then reads the page's
current (new) attributes, as the real observer does through the `PageNode`
accessors. `OnBeforePageNodeRemoved` fires before the page is removed.
Events with an out-of-range index leave the system unchanged. -/
def stepEvent (ev : PageEvent) (st : SystemState) : Option SystemState :=
  match ev with
  | .addPage pg => do
      let obs ← onPageNodeAdded pg st.obs
      some { pop := st.pop ++ [pg], obs := obs }
  | .removePage i =>
      match st.pop[i]? with
      | none => some st
      | some pg => do
          let obs ← onBeforePageNodeRemoved pg st.obs
          some { pop := st.pop.eraseIdx i, obs := obs }
  | .toggleFocused i =>
      match st.pop[i]? with
      | none => some st
      | some pg => do
          let pg1 : Page := { pg with focused := !pg.focused }
          let obs ← onIsFocusedChanged pg1 st.obs
          some { pop := st.pop.set i pg1, obs := obs }
  | .toggleVisible i =>
      match st.pop[i]? with
      | none => some st
      | some pg => do
          let pg1 : Page := { pg with visible := !pg.visible }
          let obs ← onIsVisibleChanged pg1 st.obs
          some { pop := st.pop.set i pg1, obs := obs }
  | .setLoadingState i s =>
      match st.pop[i]? with
      | none => some st
      | some pg => do
          let pg1 : Page := { pg with loadingState := s }
          let obs ← onLoadingStateChanged pg1 pg.loadingState st.obs
          some { pop := st.pop.set i pg1, obs := obs }

/-- Run a list of events. -/
def runEvents : List PageEvent → SystemState → Option SystemState
  | [], st => some st
  | ev :: rest, st => do
      let st1 ← stepEvent ev st
      runEvents rest st1

/-- The initial system: empty graph, zeroed counts, default cell. -/
def initState : SystemState := { pop := [], obs := {} }

/-- Page counted towards `loading_pages`. -/
def cntLoading (pg : Page) : Bool := stateIsLoading pg.loadingState

/-- Page counted towards `visible_loading_pages`. -/
def cntVisible (pg : Page) : Bool := stateIsLoading pg.loadingState && pg.visible

/-- Page counted towards `focused_loading_pages`. -/
def cntFocused (pg : Page) : Bool := stateIsLoading pg.loadingState && pg.focused

/-- The counts a population should produce. -/
def derivedCounts (pop : List Page) : LoadingCounts :=
  { focused_loading_pages := pop.countP cntFocused,
    visible_loading_pages := pop.countP cntVisible,
    loading_pages := pop.countP cntLoading }

/-! ## Basic characterizations of the checked counter operations -/

theorem inc_eq_some_iff (c : LoadingCounts) (v f : Bool) (c' : LoadingCounts) :
    c.IncrementLoadingPageCounts v f = some c' ↔
      (c.loading_pages + 1 ≤ sizeMax ∧
       (v = true → c.visible_loading_pages + 1 ≤ sizeMax) ∧
       (f = true → c.focused_loading_pages + 1 ≤ sizeMax) ∧
       c' = { focused_loading_pages :=
                c.focused_loading_pages + (if f = true then 1 else 0),
              visible_loading_pages :=
                c.visible_loading_pages + (if v = true then 1 else 0),
              loading_pages := c.loading_pages + 1 }) := by
  cases v <;> cases f <;>
    simp [LoadingCounts.IncrementLoadingPageCounts, checkIncrement] <;>
    split_ifs <;> simp_all <;> try exact eq_comm

theorem dec_eq_some_iff (c : LoadingCounts) (v f : Bool) (c' : LoadingCounts) :
    c.DecrementLoadingPageCounts v f = some c' ↔
      (1 ≤ c.loading_pages ∧
       (v = true → 1 ≤ c.visible_loading_pages) ∧
       (f = true → 1 ≤ c.focused_loading_pages) ∧
       c' = { focused_loading_pages :=
                c.focused_loading_pages - (if f = true then 1 else 0),
              visible_loading_pages :=
                c.visible_loading_pages - (if v = true then 1 else 0),
              loading_pages := c.loading_pages - 1 }) := by
  cases v <;> cases f <;>
    simp [LoadingCounts.DecrementLoadingPageCounts, checkDecrement] <;>
    split_ifs <;> simp_all <;> try exact eq_comm

theorem inc_eq_none_iff (c : LoadingCounts) (v f : Bool) :
    c.IncrementLoadingPageCounts v f = none ↔
      sizeMax ≤ c.loading_pages ∨
      (v = true ∧ sizeMax ≤ c.visible_loading_pages) ∨
      (f = true ∧ sizeMax ≤ c.focused_loading_pages) := by
  cases v <;> cases f <;>
    simp [LoadingCounts.IncrementLoadingPageCounts, checkIncrement] <;> omega

theorem dec_eq_none_iff (c : LoadingCounts) (v f : Bool) :
    c.DecrementLoadingPageCounts v f = none ↔
      c.loading_pages = 0 ∨
      (v = true ∧ c.visible_loading_pages = 0) ∨
      (f = true ∧ c.focused_loading_pages = 0) := by
  cases v <;> cases f <;>
    simp [LoadingCounts.DecrementLoadingPageCounts, checkDecrement] <;> omega

/-! ## Claim theorems -/

/-- C1: `GetScenario` follows the precedence order: `kFocusedPageLoading`
iff `focused_loading_pages > 0`; otherwise `kVisiblePageLoading` iff
`visible_loading_pages > 0`; otherwise `kBackgroundPageLoading` iff
`loading_pages > 0`; otherwise `kNoPageLoading`. -/
theorem c1_getScenario_precedence (c : LoadingCounts) :
    (c.GetScenario = .kFocusedPageLoading ↔ 0 < c.focused_loading_pages) ∧
    (c.GetScenario = .kVisiblePageLoading ↔
       c.focused_loading_pages = 0 ∧ 0 < c.visible_loading_pages) ∧
    (c.GetScenario = .kBackgroundPageLoading ↔
       c.focused_loading_pages = 0 ∧ c.visible_loading_pages = 0 ∧
         0 < c.loading_pages) ∧
    (c.GetScenario = .kNoPageLoading ↔
       c.focused_loading_pages = 0 ∧ c.visible_loading_pages = 0 ∧
         c.loading_pages = 0) := by
  unfold LoadingCounts.GetScenario
  split_ifs <;> simp_all <;> omega

/-- C7: `StateIsLoading` is true exactly for `kLoading` and `kLoadedBusy`
and false exactly for the other three of the five `LoadingState` variants. -/
theorem c7_stateIsLoading_characterization :
    ∀ s : LoadingState,
      (stateIsLoading s = true ↔ s = .kLoading ∨ s = .kLoadedBusy) ∧
      (stateIsLoading s = false ↔
        s = .kLoadingNotStarted ∨ s = .kLoadingTimedOut ∨ s = .kLoadedIdle) := by
  intro s; cases s <;> simp [stateIsLoading]

/-- C6: `OnTakenFromGraph` resets the counters to zero and publishes
`kNoPageLoading`, from any prior observer state. -/
theorem c6_onTakenFromGraph_resets (st : ObserverState) :
    (onTakenFromGraph st).global_counts = ({} : LoadingCounts) ∧
    (onTakenFromGraph st).published = LoadingScenario.kNoPageLoading := by
  constructor <;> rfl

/-- C4: for in-range (`size_t`-representable) counters, the increment traps
(`none`) exactly when a counter it touches is at `sizeMax`, the decrement
traps exactly when a counter it touches is zero, and otherwise both return
the exact ±1 updates — no wrap-around. -/
theorem c4_checked_arithmetic (c : LoadingCounts) (v f : Bool)
    (hl : c.loading_pages ≤ sizeMax) (hv : c.visible_loading_pages ≤ sizeMax)
    (hf : c.focused_loading_pages ≤ sizeMax) :
    (c.IncrementLoadingPageCounts v f = none ↔
       c.loading_pages = sizeMax ∨ (v = true ∧ c.visible_loading_pages = sizeMax) ∨
         (f = true ∧ c.focused_loading_pages = sizeMax)) ∧
    (c.DecrementLoadingPageCounts v f = none ↔
       c.loading_pages = 0 ∨ (v = true ∧ c.visible_loading_pages = 0) ∨
         (f = true ∧ c.focused_loading_pages = 0)) ∧
    (c.loading_pages < sizeMax → (v = true → c.visible_loading_pages < sizeMax) →
       (f = true → c.focused_loading_pages < sizeMax) →
       c.IncrementLoadingPageCounts v f = some
         { focused_loading_pages :=
             c.focused_loading_pages + (if f = true then 1 else 0),
           visible_loading_pages :=
             c.visible_loading_pages + (if v = true then 1 else 0),
           loading_pages := c.loading_pages + 1 }) ∧
    (0 < c.loading_pages → (v = true → 0 < c.visible_loading_pages) →
       (f = true → 0 < c.focused_loading_pages) →
       c.DecrementLoadingPageCounts v f = some
         { focused_loading_pages :=
             c.focused_loading_pages - (if f = true then 1 else 0),
           visible_loading_pages :=
             c.visible_loading_pages - (if v = true then 1 else 0),
           loading_pages := c.loading_pages - 1 }) := by
  refine ⟨?_, ?_, ?_, ?_⟩
  · rw [inc_eq_none_iff]
    cases v <;> cases f <;> simp_all <;> omega
  · rw [dec_eq_none_iff]
  · intro h1 h2 h3
    rw [inc_eq_some_iff]
    refine ⟨by omega, fun hv2 => by have := h2 hv2; omega,
      fun hf2 => by have := h3 hf2; omega, rfl⟩
  · intro h1 h2 h3
    rw [dec_eq_some_iff]
    refine ⟨by omega, fun hv2 => h2 hv2, fun hf2 => h3 hf2, rfl⟩

/-- Witness for C4 at `⟨1, 1, 1⟩` with both flags set: the increment yields
`⟨2, 2, 2⟩` and the decrement yields `⟨0, 0, 0⟩`. -/
theorem c4_witness :
    LoadingCounts.IncrementLoadingPageCounts ⟨1, 1, 1⟩ true true = some
      { focused_loading_pages := 1 + (if true = true then 1 else 0),
        visible_loading_pages := 1 + (if true = true then 1 else 0),
        loading_pages := 1 + 1 } ∧
    LoadingCounts.DecrementLoadingPageCounts ⟨1, 1, 1⟩ true true = some
      { focused_loading_pages := 1 - (if true = true then 1 else 0),
        visible_loading_pages := 1 - (if true = true then 1 else 0),
        loading_pages := 1 - 1 } := by
  have h := c4_checked_arithmetic ⟨1, 1, 1⟩ true true (by decide) (by decide)
    (by decide)
  exact ⟨h.2.2.1 (by decide) (fun _ => by decide) (fun _ => by decide),
         h.2.2.2 (by decide) (fun _ => by decide) (fun _ => by decide)⟩

/-- C3 counterexample: take the state with `focused_loading_pages = sizeMax`,
`visible_loading_pages = 0`, `loading_pages = 1`, with `visible = false`,
new `focused = true`. `DecrementLoadingPageCounts(false, !true)` does not
underflow (it succeeds), yet the follow-up
`IncrementLoadingPageCounts(false, true)` overflows the focused counter, so
the focus-change sequence traps instead of leaving `loading_pages` and
`visible_loading_pages` at their pre-call values. -/
theorem c3_counterexample :
    LoadingCounts.DecrementLoadingPageCounts ⟨sizeMax, 0, 1⟩ false (!true) =
      some ⟨sizeMax, 0, 0⟩ ∧
    (LoadingCounts.DecrementLoadingPageCounts ⟨sizeMax, 0, 1⟩ false
        (!true)).bind
      (fun c1 => c1.IncrementLoadingPageCounts false true) = none := by
  constructor <;> decide

/-- C3 (amended): if the decrement with `(visible, !focused)` succeeds AND
the subsequent increment with `(visible, focused)` also succeeds (no
overflow), then the focus-change sequence preserves `loading_pages` and
`visible_loading_pages` and moves `focused_loading_pages` by +1 when
`focused` is true and by −1 when `focused` is false (in the latter case the
pre-call focused count is at least 1, so the subtraction is exact). -/
theorem c3_focus_change_net_effect (c c1 c2 : LoadingCounts) (v f : Bool)
    (h1 : c.DecrementLoadingPageCounts v (!f) = some c1)
    (h2 : c1.IncrementLoadingPageCounts v f = some c2) :
    c2.loading_pages = c.loading_pages ∧
    c2.visible_loading_pages = c.visible_loading_pages ∧
    c2.focused_loading_pages =
      (if f = true then c.focused_loading_pages + 1
       else c.focused_loading_pages - 1) ∧
    (f = false → 1 ≤ c.focused_loading_pages) := by
  rw [dec_eq_some_iff] at h1
  rw [inc_eq_some_iff] at h2
  obtain ⟨hd1, hd2, hd3, rfl⟩ := h1
  obtain ⟨hi1, hi2, hi3, rfl⟩ := h2
  cases v <;> cases f <;> simp_all

/-- Witness for C3 (amended) at `c = ⟨1, 1, 1⟩`, `visible = true`,
`focused = false`. -/
theorem c3_witness :
    (LoadingCounts.mk 0 1 1).loading_pages = (LoadingCounts.mk 1 1 1).loading_pages ∧
    (LoadingCounts.mk 0 1 1).visible_loading_pages =
      (LoadingCounts.mk 1 1 1).visible_loading_pages ∧
    (LoadingCounts.mk 0 1 1).focused_loading_pages =
      (if false = true then (LoadingCounts.mk 1 1 1).focused_loading_pages + 1
       else (LoadingCounts.mk 1 1 1).focused_loading_pages - 1) ∧
    (false = false → 1 ≤ (LoadingCounts.mk 1 1 1).focused_loading_pages) :=
  c3_focus_change_net_effect ⟨1, 1, 1⟩ ⟨0, 0, 0⟩ ⟨0, 1, 1⟩ true false
    (by decide) (by decide)

/-- C10: when the page does not satisfy the loading predicate,
`OnPageNodeAdded` leaves the counts unchanged but still performs a store of
the (unchanged) derived scenario, while `OnBeforePageNodeRemoved` returns
the state untouched with no store at all. -/
theorem c10_add_remove_asymmetry (pg : Page) (st : ObserverState)
    (h : stateIsLoading pg.loadingState = false) :
    onPageNodeAdded pg st =
      some { global_counts := st.global_counts,
             published := st.global_counts.GetScenario,
             writes := st.writes ++ [st.global_counts.GetScenario] } ∧
    onBeforePageNodeRemoved pg st = some st := by
  constructor <;>
    simp [onPageNodeAdded, onBeforePageNodeRemoved, h, updateGlobalScenario,
      setGlobalLoadingScenario]

/-- Witness for C10 at an idle page and the default observer state. -/
theorem c10_witness :
    onPageNodeAdded ⟨.kLoadedIdle, true, true⟩ {} =
      some { global_counts := ({} : ObserverState).global_counts,
             published := ({} : ObserverState).global_counts.GetScenario,
             writes := ({} : ObserverState).writes ++
               [({} : ObserverState).global_counts.GetScenario] } ∧
    onBeforePageNodeRemoved ⟨.kLoadedIdle, true, true⟩ {} = some {} :=
  c10_add_remove_asymmetry ⟨.kLoadedIdle, true, true⟩ {} (by decide)

/-- The attach loop adds exactly the population's per-tier loading counts,
provided the running `loading_pages` counter has room for them and dominates
the other two counters (as it always does starting from zero). -/
theorem addLoadingPages_eq (pop : List Page) : ∀ c : LoadingCounts,
    c.focused_loading_pages ≤ c.loading_pages →
    c.visible_loading_pages ≤ c.loading_pages →
    c.loading_pages + pop.countP cntLoading ≤ sizeMax →
    addLoadingPages pop c = some
      { focused_loading_pages :=
          c.focused_loading_pages + pop.countP cntFocused,
        visible_loading_pages :=
          c.visible_loading_pages + pop.countP cntVisible,
        loading_pages := c.loading_pages + pop.countP cntLoading } := by
  induction pop with
  | nil => intro c _ _ _; simp [addLoadingPages]
  | cons pg rest ih =>
    intro c hf hv hb
    by_cases hpg : stateIsLoading pg.loadingState = true
    · have hcnt : (pg :: rest).countP cntLoading =
          rest.countP cntLoading + 1 := by
        simp [List.countP_cons, cntLoading, hpg]
      rw [hcnt] at hb
      have hinc : c.IncrementLoadingPageCounts pg.visible pg.focused = some
          { focused_loading_pages :=
              c.focused_loading_pages + (if pg.focused = true then 1 else 0),
            visible_loading_pages :=
              c.visible_loading_pages + (if pg.visible = true then 1 else 0),
            loading_pages := c.loading_pages + 1 } := by
        rw [inc_eq_some_iff]
        refine ⟨by omega, fun _ => by omega, fun _ => by omega, rfl⟩
      simp only [addLoadingPages, hpg, if_true, hinc, Option.bind_eq_bind,
        Option.some_bind]
      have hs1 : c.focused_loading_pages + (if pg.focused = true then 1 else 0) ≤
          c.loading_pages + 1 := by split <;> omega
      have hs2 : c.visible_loading_pages + (if pg.visible = true then 1 else 0) ≤
          c.loading_pages + 1 := by split <;> omega
      have hs3 : c.loading_pages + 1 + List.countP cntLoading rest ≤ sizeMax := by
        omega
      rw [ih _ hs1 hs2 hs3]
      simp only [List.countP_cons, cntLoading, cntVisible, cntFocused, hpg,
        Bool.true_and, if_true, Option.some.injEq, LoadingCounts.mk.injEq]
      refine ⟨by omega, by omega, by omega⟩
    · simp only [Bool.not_eq_true] at hpg
      have hcnt : ∀ p : Page → Bool,
          (p = cntLoading ∨ p = cntVisible ∨ p = cntFocused) →
          (pg :: rest).countP p = rest.countP p := by
        intro p hp
        rcases hp with rfl | rfl | rfl <;>
          simp [List.countP_cons, cntLoading, cntVisible, cntFocused, hpg]
      simp only [addLoadingPages, hpg, if_false, Option.bind_some,
        Bool.false_eq_true]
      rw [hcnt cntLoading (by tauto), hcnt cntVisible (by tauto),
        hcnt cntFocused (by tauto)]
      exact ih c hf hv (by rw [hcnt cntLoading (by tauto)] at hb; exact hb)

/-- Successful attach: with zeroed counts, a default published cell and a
population that fits in `size_t`, `OnPassedToGraph` succeeds and installs
the derived counts and their scenario. -/
theorem onPassedToGraph_ok (pop : List Page) (st : ObserverState)
    (h1 : st.global_counts = ({} : LoadingCounts))
    (h2 : st.published = LoadingScenario.kNoPageLoading)
    (hlen : pop.length ≤ sizeMax) :
    onPassedToGraph pop st =
      some { global_counts := derivedCounts pop,
             published := (derivedCounts pop).GetScenario,
             writes := st.writes ++ [(derivedCounts pop).GetScenario] } := by
  have hadd := addLoadingPages_eq pop ({} : LoadingCounts)
    (by simp) (by simp)
    (by simpa using le_trans (List.countP_le_length cntLoading) hlen)
  simp only [onPassedToGraph, h1, h2, and_self, if_true, hadd,
    Option.bind_eq_bind, Option.some_bind]
  simp [updateGlobalScenario, setGlobalLoadingScenario, derivedCounts, h1]

/-- C9: `OnPassedToGraph` CHECK-fails (`none`) whenever the counts are not
all zero or the published cell is not `kNoPageLoading`; when both
preconditions hold (and the population fits in `size_t`), the attach
proceeds and publishes the derived counts' scenario. -/
theorem c9_onPassedToGraph_preconditions (pop : List Page)
    (st : ObserverState) :
    (st.global_counts ≠ ({} : LoadingCounts) ∨
       st.published ≠ LoadingScenario.kNoPageLoading →
       onPassedToGraph pop st = none) ∧
    (st.global_counts = ({} : LoadingCounts) →
       st.published = LoadingScenario.kNoPageLoading →
       pop.length ≤ sizeMax →
       onPassedToGraph pop st =
         some { global_counts := derivedCounts pop,
                published := (derivedCounts pop).GetScenario,
                writes := st.writes ++ [(derivedCounts pop).GetScenario] }) := by
  constructor
  · intro h
    rcases h with h | h <;> simp [onPassedToGraph, h]
  · intro h1 h2 hlen
    exact onPassedToGraph_ok pop st h1 h2 hlen

/-- Witness for C9: the first conjunct at counts `⟨1, 0, 1⟩`, the second at
the default state with the empty population. -/
theorem c9_witness :
    onPassedToGraph []
      { global_counts := ⟨1, 0, 1⟩, published := .kFocusedPageLoading,
        writes := [] } = none ∧
    onPassedToGraph [] {} =
      some { global_counts := derivedCounts [],
             published := (derivedCounts []).GetScenario,
             writes := ({} : ObserverState).writes ++
               [(derivedCounts []).GetScenario] } :=
  ⟨(c9_onPassedToGraph_preconditions [] _).1 (Or.inl (by decide)),
   (c9_onPassedToGraph_preconditions [] {}).2 rfl rfl (by decide)⟩

/-- C5: attaching a fresh observer (zeroed counts, cell at `kNoPageLoading`,
no stores yet) to a population whose size fits in `size_t` ends with
`loading_pages`, `visible_loading_pages` and `focused_loading_pages` equal
to the number of loading pages, of loading-and-visible pages, and of
loading-and-focused pages respectively, and with exactly one store — of the
derived scenario — to the published cell; in particular, for the population
[idle, idle, loading+visible, loading+visible+focused] the counts are
`⟨focused := 1, visible := 2, loading := 2⟩` and the single published value
is `kFocusedPageLoading`. -/
theorem c5_onPassedToGraph_counts :
    (∀ pop : List Page, pop.length ≤ sizeMax →
       onPassedToGraph pop {} =
         some { global_counts := derivedCounts pop,
                published := (derivedCounts pop).GetScenario,
                writes := [(derivedCounts pop).GetScenario] }) ∧
    onPassedToGraph
        [⟨.kLoadedIdle, true, false⟩, ⟨.kLoadedIdle, false, false⟩,
         ⟨.kLoading, true, false⟩, ⟨.kLoading, true, true⟩] {} =
      some { global_counts := ⟨1, 2, 2⟩,
             published := .kFocusedPageLoading,
             writes := [.kFocusedPageLoading] } := by
  constructor
  · intro pop hlen
    simpa using onPassedToGraph_ok pop {} rfl rfl hlen
  · decide

/-- Witness for C5 at the claim's own 4-page population. -/
theorem c5_witness :
    onPassedToGraph
        [⟨.kLoadedIdle, true, false⟩, ⟨.kLoadedIdle, false, false⟩,
         ⟨.kLoading, true, false⟩, ⟨.kLoading, true, true⟩] {} =
      some { global_counts := derivedCounts
               [⟨.kLoadedIdle, true, false⟩, ⟨.kLoadedIdle, false, false⟩,
                ⟨.kLoading, true, false⟩, ⟨.kLoading, true, true⟩],
             published := (derivedCounts
               [⟨.kLoadedIdle, true, false⟩, ⟨.kLoadedIdle, false, false⟩,
                ⟨.kLoading, true, false⟩, ⟨.kLoading, true, true⟩]).GetScenario,
             writes := [(derivedCounts
               [⟨.kLoadedIdle, true, false⟩, ⟨.kLoadedIdle, false, false⟩,
                ⟨.kLoading, true, false⟩,
                ⟨.kLoading, true, true⟩]).GetScenario] } :=
  c5_onPassedToGraph_counts.1 _ (by decide)

/-- C8: when the previous and current loading states agree on the loading
predicate, `OnLoadingStateChanged` is a complete no-op (same counts, no
store); when the predicate flipped, the handler increments (became loading)
or decrements (stopped loading) with the page's current visible/focused
flags and performs exactly one store of the new derived scenario. -/
theorem c8_onLoadingStateChanged_effect (pg : Page) (prev : LoadingState)
    (st : ObserverState) :
    (stateIsLoading pg.loadingState = stateIsLoading prev →
       onLoadingStateChanged pg prev st = some st) ∧
    (∀ c, stateIsLoading pg.loadingState = true → stateIsLoading prev = false →
       st.global_counts.IncrementLoadingPageCounts pg.visible pg.focused =
         some c →
       onLoadingStateChanged pg prev st =
         some { global_counts := c, published := c.GetScenario,
                writes := st.writes ++ [c.GetScenario] }) ∧
    (∀ c, stateIsLoading pg.loadingState = false → stateIsLoading prev = true →
       st.global_counts.DecrementLoadingPageCounts pg.visible pg.focused =
         some c →
       onLoadingStateChanged pg prev st =
         some { global_counts := c, published := c.GetScenario,
                writes := st.writes ++ [c.GetScenario] }) := by
  refine ⟨fun h => ?_, fun c h1 h2 hc => ?_, fun c h1 h2 hc => ?_⟩ <;>
    simp_all [onLoadingStateChanged, updateGlobalScenario,
      setGlobalLoadingScenario]

/-- Witness for C8: a loading→loading transition is a no-op; a
not-loading→loading transition increments and publishes; a
loading→not-loading transition decrements and publishes. -/
theorem c8_witness :
    onLoadingStateChanged ⟨.kLoadedBusy, true, false⟩ .kLoading {} = some {} ∧
    onLoadingStateChanged ⟨.kLoading, false, false⟩ .kLoadedIdle {} =
      some { global_counts := ⟨0, 0, 1⟩,
             published := LoadingCounts.GetScenario ⟨0, 0, 1⟩,
             writes := ({} : ObserverState).writes ++
               [LoadingCounts.GetScenario ⟨0, 0, 1⟩] } ∧
    onLoadingStateChanged ⟨.kLoadedIdle, false, false⟩ .kLoading
        { global_counts := ⟨0, 0, 1⟩, published := .kBackgroundPageLoading,
          writes := [] } =
      some { global_counts := ⟨0, 0, 0⟩,
             published := LoadingCounts.GetScenario ⟨0, 0, 0⟩,
             writes := [] ++ [LoadingCounts.GetScenario ⟨0, 0, 0⟩] } :=
  ⟨(c8_onLoadingStateChanged_effect ⟨.kLoadedBusy, true, false⟩ .kLoading
      {}).1 (by decide),
   (c8_onLoadingStateChanged_effect ⟨.kLoading, false, false⟩ .kLoadedIdle
      {}).2.1 ⟨0, 0, 1⟩ (by decide) (by decide) (by decide),
   (c8_onLoadingStateChanged_effect ⟨.kLoadedIdle, false, false⟩ .kLoading
      _).2.2 ⟨0, 0, 0⟩ (by decide) (by decide) (by decide)⟩

/-! ## Counting the population -/

theorem countP_eraseIdx_add {α : Type} (p : α → Bool) :
    ∀ (l : List α) (i : Nat) (x : α), l[i]? = some x →
      (l.eraseIdx i).countP p + (if p x = true then 1 else 0) = l.countP p := by
  intro l
  induction l with
  | nil => intro i x h; simp at h
  | cons a t ih =>
    intro i x h
    cases i with
    | zero =>
      simp only [List.getElem?_cons_zero, Option.some.injEq] at h
      subst h
      simp [List.eraseIdx_cons_zero, List.countP_cons]
    | succ i =>
      simp only [List.getElem?_cons_succ] at h
      have hx := ih i x h
      simp only [List.eraseIdx_cons_succ, List.countP_cons]
      omega

theorem countP_set_add {α : Type} (p : α → Bool) :
    ∀ (l : List α) (i : Nat) (x a : α), l[i]? = some x →
      (l.set i a).countP p + (if p x = true then 1 else 0) =
        l.countP p + (if p a = true then 1 else 0) := by
  intro l
  induction l with
  | nil => intro i x a h; simp at h
  | cons b t ih =>
    intro i x a h
    cases i with
    | zero =>
      simp only [List.getElem?_cons_zero, Option.some.injEq] at h
      subst h
      simp only [List.set_cons_zero, List.countP_cons]
      omega
    | succ i =>
      simp only [List.getElem?_cons_succ] at h
      have hx := ih i x a h
      simp only [List.set_cons_succ, List.countP_cons]
      omega

/-! ## Normal forms of the handlers -/

theorem onPageNodeAdded_eq (pg : Page) (st : ObserverState) :
    onPageNodeAdded pg st =
      (if stateIsLoading pg.loadingState = true then
        st.global_counts.IncrementLoadingPageCounts pg.visible pg.focused
       else some st.global_counts).bind
        (fun c => some (updateGlobalScenario { st with global_counts := c })) := by
  by_cases hl : stateIsLoading pg.loadingState = true
  · cases hx : st.global_counts.IncrementLoadingPageCounts pg.visible pg.focused <;>
      simp [onPageNodeAdded, hl, hx]
  · simp only [Bool.not_eq_true] at hl
    simp [onPageNodeAdded, hl]

theorem onBeforePageNodeRemoved_eq (pg : Page) (st : ObserverState) :
    onBeforePageNodeRemoved pg st =
      if stateIsLoading pg.loadingState = true then
        (st.global_counts.DecrementLoadingPageCounts pg.visible pg.focused).bind
          (fun c => some (updateGlobalScenario { st with global_counts := c }))
      else some st := by
  by_cases hl : stateIsLoading pg.loadingState = true
  · cases hx : st.global_counts.DecrementLoadingPageCounts pg.visible pg.focused <;>
      simp [onBeforePageNodeRemoved, hl, hx]
  · simp only [Bool.not_eq_true] at hl
    simp [onBeforePageNodeRemoved, hl]

theorem onIsFocusedChanged_eq (pg : Page) (st : ObserverState) :
    onIsFocusedChanged pg st =
      if stateIsLoading pg.loadingState = true then
        (st.global_counts.DecrementLoadingPageCounts pg.visible (!pg.focused)).bind
          (fun c1 => (c1.IncrementLoadingPageCounts pg.visible pg.focused).bind
            (fun c2 => some (updateGlobalScenario { st with global_counts := c2 })))
      else some st := by
  by_cases hl : stateIsLoading pg.loadingState = true
  · cases hx : st.global_counts.DecrementLoadingPageCounts pg.visible (!pg.focused) with
    | none => simp [onIsFocusedChanged, hl, hx]
    | some c1 =>
      cases hy : c1.IncrementLoadingPageCounts pg.visible pg.focused <;>
        simp [onIsFocusedChanged, hl, hx, hy]
  · simp only [Bool.not_eq_true] at hl
    simp [onIsFocusedChanged, hl]

theorem onIsVisibleChanged_eq (pg : Page) (st : ObserverState) :
    onIsVisibleChanged pg st =
      if stateIsLoading pg.loadingState = true then
        (st.global_counts.DecrementLoadingPageCounts (!pg.visible) pg.focused).bind
          (fun c1 => (c1.IncrementLoadingPageCounts pg.visible pg.focused).bind
            (fun c2 => some (updateGlobalScenario { st with global_counts := c2 })))
      else some st := by
  by_cases hl : stateIsLoading pg.loadingState = true
  · cases hx : st.global_counts.DecrementLoadingPageCounts (!pg.visible) pg.focused with
    | none => simp [onIsVisibleChanged, hl, hx]
    | some c1 =>
      cases hy : c1.IncrementLoadingPageCounts pg.visible pg.focused <;>
        simp [onIsVisibleChanged, hl, hx, hy]
  · simp only [Bool.not_eq_true] at hl
    simp [onIsVisibleChanged, hl]

theorem onLoadingStateChanged_eq (pg : Page) (prev : LoadingState)
    (st : ObserverState) :
    onLoadingStateChanged pg prev st =
      if stateIsLoading pg.loadingState = stateIsLoading prev then some st
      else
        (if stateIsLoading pg.loadingState = true then
           st.global_counts.IncrementLoadingPageCounts pg.visible pg.focused
         else
           st.global_counts.DecrementLoadingPageCounts pg.visible pg.focused).bind
          (fun c => some (updateGlobalScenario { st with global_counts := c })) := by
  by_cases he : stateIsLoading pg.loadingState = stateIsLoading prev
  · simp [onLoadingStateChanged, he]
  · by_cases hl : stateIsLoading pg.loadingState = true
    · cases hprev : stateIsLoading prev
      · cases hx : st.global_counts.IncrementLoadingPageCounts pg.visible pg.focused <;>
          simp [onLoadingStateChanged, he, hl, hprev, hx]
      · exact absurd (hl.trans hprev.symm) he
    · simp only [Bool.not_eq_true] at hl
      cases hprev : stateIsLoading prev
      · exact absurd (hl.trans hprev.symm) he
      · cases hx : st.global_counts.DecrementLoadingPageCounts pg.visible pg.focused <;>
          simp [onLoadingStateChanged, he, hl, hprev, hx]

/-! ## The counts track the population along faithful event streams -/

theorem updateGlobalScenario_counts (st : ObserverState) :
    (updateGlobalScenario st).global_counts = st.global_counts := rfl

theorem derivedCounts_append_singleton (pop : List Page) (pg : Page) :
    derivedCounts (pop ++ [pg]) =
      { focused_loading_pages := pop.countP cntFocused +
          (if cntFocused pg = true then 1 else 0),
        visible_loading_pages := pop.countP cntVisible +
          (if cntVisible pg = true then 1 else 0),
        loading_pages := pop.countP cntLoading +
          (if cntLoading pg = true then 1 else 0) } := by
  simp [derivedCounts, List.countP_append, List.countP_singleton]

theorem tracks_addPage (pg : Page) (st st' : SystemState)
    (h : st.obs.global_counts = derivedCounts st.pop)
    (hs : stepEvent (.addPage pg) st = some st') :
    st'.obs.global_counts = derivedCounts st'.pop := by
  simp only [stepEvent, onPageNodeAdded_eq, Option.bind_eq_bind,
    Option.bind_eq_some, Option.some.injEq] at hs
  obtain ⟨ob, ⟨c, hc, hob⟩, hst'⟩ := hs
  subst hob; subst hst'
  simp only [updateGlobalScenario_counts, derivedCounts_append_singleton]
  by_cases hl : stateIsLoading pg.loadingState = true
  · rw [if_pos hl, inc_eq_some_iff] at hc
    obtain ⟨-, -, -, rfl⟩ := hc
    rw [h]
    simp only [derivedCounts, cntLoading, cntVisible, cntFocused, hl,
      Bool.true_and, if_true, LoadingCounts.mk.injEq]
  · simp only [Bool.not_eq_true] at hl
    rw [if_neg (by simp [hl]), Option.some.injEq] at hc
    subst hc
    rw [h]
    simp [derivedCounts, cntLoading, cntVisible, cntFocused, hl]

theorem tracks_removePage (i : Nat) (st st' : SystemState)
    (h : st.obs.global_counts = derivedCounts st.pop)
    (hs : stepEvent (.removePage i) st = some st') :
    st'.obs.global_counts = derivedCounts st'.pop := by
  simp only [stepEvent] at hs
  cases hx : st.pop[i]? with
  | none => rw [hx, Option.some.injEq] at hs; subst hs; exact h
  | some pg =>
    rw [hx] at hs
    have eL := countP_eraseIdx_add cntLoading st.pop i pg hx
    have eV := countP_eraseIdx_add cntVisible st.pop i pg hx
    have eF := countP_eraseIdx_add cntFocused st.pop i pg hx
    by_cases hl : stateIsLoading pg.loadingState = true
    · simp only [onBeforePageNodeRemoved_eq, if_pos hl, Option.bind_eq_bind,
        Option.bind_eq_some, Option.some.injEq] at hs
      obtain ⟨ob, ⟨c, hc, hob⟩, hst'⟩ := hs
      subst hob; subst hst'
      rw [dec_eq_some_iff] at hc
      obtain ⟨hd1, hd2, hd3, rfl⟩ := hc
      rw [h] at hd1 hd2 hd3 ⊢
      simp only [updateGlobalScenario_counts, derivedCounts,
        LoadingCounts.mk.injEq]
      simp only [cntLoading, cntVisible, cntFocused, hl, Bool.true_and]
        at eL eV eF
      simp only [derivedCounts] at hd1 hd2 hd3
      cases hvis : pg.visible <;> cases hfoc : pg.focused <;>
        simp_all <;> omega
    · simp only [Bool.not_eq_true] at hl
      simp only [onBeforePageNodeRemoved_eq, hl, Bool.false_eq_true,
        if_false, Option.bind_eq_bind, Option.some_bind,
        Option.some.injEq] at hs
      subst hs
      rw [h]
      simp only [derivedCounts, LoadingCounts.mk.injEq]
      simp only [cntLoading, cntVisible, cntFocused, hl, Bool.false_and,
        Bool.false_eq_true, if_false, Nat.add_zero] at eL eV eF
      exact ⟨eF.symm, eV.symm, eL.symm⟩

theorem tracks_toggleFocused (i : Nat) (st st' : SystemState)
    (h : st.obs.global_counts = derivedCounts st.pop)
    (hs : stepEvent (.toggleFocused i) st = some st') :
    st'.obs.global_counts = derivedCounts st'.pop := by
  simp only [stepEvent] at hs
  cases hx : st.pop[i]? with
  | none => rw [hx, Option.some.injEq] at hs; subst hs; exact h
  | some pg =>
    rw [hx] at hs
    have eL := countP_set_add cntLoading st.pop i pg
      { pg with focused := !pg.focused } hx
    have eV := countP_set_add cntVisible st.pop i pg
      { pg with focused := !pg.focused } hx
    have eF := countP_set_add cntFocused st.pop i pg
      { pg with focused := !pg.focused } hx
    by_cases hl : stateIsLoading pg.loadingState = true
    · simp only [onIsFocusedChanged_eq, hl, if_pos, Bool.not_not,
        Option.bind_eq_bind, Option.bind_eq_some, Option.some.injEq] at hs
      obtain ⟨ob, ⟨c1, hc1, c2, hc2, hob⟩, hst'⟩ := hs
      subst hob; subst hst'
      rw [dec_eq_some_iff] at hc1
      obtain ⟨hd1, hd2, hd3, rfl⟩ := hc1
      rw [inc_eq_some_iff] at hc2
      obtain ⟨-, -, -, rfl⟩ := hc2
      rw [h] at hd1 hd2 hd3 ⊢
      simp only [updateGlobalScenario_counts, derivedCounts,
        LoadingCounts.mk.injEq]
      simp only [cntLoading, cntVisible, cntFocused, hl, Bool.true_and]
        at eL eV eF
      simp only [derivedCounts] at hd1 hd2 hd3
      cases hvis : pg.visible <;> cases hfoc : pg.focused <;>
        simp_all <;> omega
    · simp only [Bool.not_eq_true] at hl
      simp only [onIsFocusedChanged_eq, hl, Bool.false_eq_true, if_false,
        Option.bind_eq_bind, Option.some_bind, Option.some.injEq] at hs
      subst hs
      rw [h]
      simp only [derivedCounts, LoadingCounts.mk.injEq]
      simp only [cntLoading, cntVisible, cntFocused, hl, Bool.false_and,
        Bool.false_eq_true, if_false, Nat.add_zero] at eL eV eF
      exact ⟨eF.symm, eV.symm, eL.symm⟩

theorem tracks_toggleVisible (i : Nat) (st st' : SystemState)
    (h : st.obs.global_counts = derivedCounts st.pop)
    (hs : stepEvent (.toggleVisible i) st = some st') :
    st'.obs.global_counts = derivedCounts st'.pop := by
  simp only [stepEvent] at hs
  cases hx : st.pop[i]? with
  | none => rw [hx, Option.some.injEq] at hs; subst hs; exact h
  | some pg =>
    rw [hx] at hs
    have eL := countP_set_add cntLoading st.pop i pg
      { pg with visible := !pg.visible } hx
    have eV := countP_set_add cntVisible st.pop i pg
      { pg with visible := !pg.visible } hx
    have eF := countP_set_add cntFocused st.pop i pg
      { pg with visible := !pg.visible } hx
    by_cases hl : stateIsLoading pg.loadingState = true
    · simp only [onIsVisibleChanged_eq, hl, if_pos, Bool.not_not,
        Option.bind_eq_bind, Option.bind_eq_some, Option.some.injEq] at hs
      obtain ⟨ob, ⟨c1, hc1, c2, hc2, hob⟩, hst'⟩ := hs
      subst hob; subst hst'
      rw [dec_eq_some_iff] at hc1
      obtain ⟨hd1, hd2, hd3, rfl⟩ := hc1
      rw [inc_eq_some_iff] at hc2
      obtain ⟨-, -, -, rfl⟩ := hc2
      rw [h] at hd1 hd2 hd3 ⊢
      simp only [updateGlobalScenario_counts, derivedCounts,
        LoadingCounts.mk.injEq]
      simp only [cntLoading, cntVisible, cntFocused, hl, Bool.true_and]
        at eL eV eF
      simp only [derivedCounts] at hd1 hd2 hd3
      cases hvis : pg.visible <;> cases hfoc : pg.focused <;>
        simp_all <;> omega
    · simp only [Bool.not_eq_true] at hl
      simp only [onIsVisibleChanged_eq, hl, Bool.false_eq_true, if_false,
        Option.bind_eq_bind, Option.some_bind, Option.some.injEq] at hs
      subst hs
      rw [h]
      simp only [derivedCounts, LoadingCounts.mk.injEq]
      simp only [cntLoading, cntVisible, cntFocused, hl, Bool.false_and,
        Bool.false_eq_true, if_false, Nat.add_zero] at eL eV eF
      exact ⟨eF.symm, eV.symm, eL.symm⟩

theorem tracks_setLoadingState (i : Nat) (s : LoadingState)
    (st st' : SystemState)
    (h : st.obs.global_counts = derivedCounts st.pop)
    (hs : stepEvent (.setLoadingState i s) st = some st') :
    st'.obs.global_counts = derivedCounts st'.pop := by
  simp only [stepEvent] at hs
  cases hx : st.pop[i]? with
  | none => rw [hx, Option.some.injEq] at hs; subst hs; exact h
  | some pg =>
    rw [hx] at hs
    have eL := countP_set_add cntLoading st.pop i pg
      { pg with loadingState := s } hx
    have eV := countP_set_add cntVisible st.pop i pg
      { pg with loadingState := s } hx
    have eF := countP_set_add cntFocused st.pop i pg
      { pg with loadingState := s } hx
    simp only [cntLoading, cntVisible, cntFocused] at eL eV eF
    by_cases he : stateIsLoading s = stateIsLoading pg.loadingState
    · simp only [onLoadingStateChanged_eq, he, if_pos, Option.bind_eq_bind,
        Option.some_bind, Option.some.injEq] at hs
      subst hs
      rw [h]
      simp only [derivedCounts, LoadingCounts.mk.injEq]
      cases hls : stateIsLoading s <;> simp_all
    · simp only [onLoadingStateChanged_eq, he, if_neg, if_false,
        Option.bind_eq_bind, Option.bind_eq_some, Option.some.injEq] at hs
      obtain ⟨ob, ⟨c, hc, hob⟩, hst'⟩ := hs
      subst hob; subst hst'
      simp only [updateGlobalScenario_counts]
      cases hl : stateIsLoading s with
      | true =>
        have hprev : stateIsLoading pg.loadingState = false := by
          cases hp : stateIsLoading pg.loadingState
          · rfl
          · exact absurd (hl.trans hp.symm) he
        rw [hl, if_pos rfl, inc_eq_some_iff] at hc
        obtain ⟨-, -, -, rfl⟩ := hc
        rw [h]
        simp only [derivedCounts, LoadingCounts.mk.injEq]
        simp only [hl, hprev, Bool.true_and, Bool.false_and] at eL eV eF
        cases hvis : pg.visible <;> cases hfoc : pg.focused <;>
          simp_all
      | false =>
        have hprev : stateIsLoading pg.loadingState = true := by
          cases hp : stateIsLoading pg.loadingState
          · exact absurd (hl.trans hp.symm) he
          · rfl
        rw [hl] at hc
        rw [if_neg (by simp), dec_eq_some_iff] at hc
        obtain ⟨hd1, hd2, hd3, rfl⟩ := hc
        rw [h] at hd1 hd2 hd3 ⊢
        simp only [derivedCounts, LoadingCounts.mk.injEq]
        simp only [hl, hprev, Bool.true_and, Bool.false_and] at eL eV eF
        simp only [derivedCounts] at hd1 hd2 hd3
        cases hvis : pg.visible <;> cases hfoc : pg.focused <;>
          simp_all <;> omega

theorem stepEvent_tracks (ev : PageEvent) (st st' : SystemState)
    (h : st.obs.global_counts = derivedCounts st.pop)
    (hs : stepEvent ev st = some st') :
    st'.obs.global_counts = derivedCounts st'.pop := by
  cases ev with
  | addPage pg => exact tracks_addPage pg st st' h hs
  | removePage i => exact tracks_removePage i st st' h hs
  | toggleFocused i => exact tracks_toggleFocused i st st' h hs
  | toggleVisible i => exact tracks_toggleVisible i st st' h hs
  | setLoadingState i s => exact tracks_setLoadingState i s st st' h hs

theorem runEvents_tracks : ∀ (evs : List PageEvent) (st st' : SystemState),
    st.obs.global_counts = derivedCounts st.pop →
    runEvents evs st = some st' →
    st'.obs.global_counts = derivedCounts st'.pop := by
  intro evs
  induction evs with
  | nil =>
    intro st st' h hs
    rw [runEvents, Option.some.injEq] at hs
    subst hs; exact h
  | cons ev rest ih =>
    intro st st' h hs
    rw [runEvents] at hs
    cases hstep : stepEvent ev st with
    | none => rw [hstep] at hs; simp at hs
    | some st1 =>
      rw [hstep] at hs
      simp only [Option.bind_eq_bind, Option.some_bind] at hs
      exact ih st1 st' (stepEvent_tracks ev st st1 h hstep) hs

/-- C2 counterexample: the claim explicitly allows a notification whose page
reports `focused = true` with `visible = false`. One faithful event — adding
a loading page with exactly those attributes — drives the counts to
`focused_loading_pages = 1 > 0 = visible_loading_pages`, violating the
claimed invariant `focused ≤ visible` after that operation. -/
theorem c2_counterexample :
    runEvents [PageEvent.addPage ⟨.kLoading, false, true⟩] initState =
      some { pop := [⟨.kLoading, false, true⟩],
             obs := { global_counts := ⟨1, 0, 1⟩,
                      published := .kFocusedPageLoading,
                      writes := [.kFocusedPageLoading] } } ∧
    ¬ (({ focused_loading_pages := 1, visible_loading_pages := 0,
          loading_pages := 1 } : LoadingCounts).focused_loading_pages ≤
       ({ focused_loading_pages := 1, visible_loading_pages := 0,
          loading_pages := 1 } : LoadingCounts).visible_loading_pages) := by
  constructor <;> decide

/-- C2 (amended): along every faithful notification sequence from the
zeroed initial system, whenever the resulting population only reports focus
together with visibility (focused → visible, the collaborator's guarantee),
the invariant `focused_loading_pages ≤ visible_loading_pages ≤
loading_pages` holds. This applies to every prefix of a run, hence after
every operation. -/
theorem c2_invariant_of_focus_implies_visible (evs : List PageEvent)
    (st' : SystemState)
    (hrun : runEvents evs initState = some st')
    (hfv : ∀ pg ∈ st'.pop, pg.focused = true → pg.visible = true) :
    st'.obs.global_counts.focused_loading_pages ≤
      st'.obs.global_counts.visible_loading_pages ∧
    st'.obs.global_counts.visible_loading_pages ≤
      st'.obs.global_counts.loading_pages := by
  have ht := runEvents_tracks evs initState st' rfl hrun
  rw [ht]
  simp only [derivedCounts]
  refine ⟨List.countP_mono_left ?_, List.countP_mono_left ?_⟩
  · intro pg hmem hp
    simp only [cntFocused, Bool.and_eq_true] at hp
    simp only [cntVisible, Bool.and_eq_true]
    exact ⟨hp.1, hfv pg hmem hp.2⟩
  · intro pg hmem hp
    simp only [cntVisible, Bool.and_eq_true] at hp
    simp only [cntLoading]
    exact hp.1

/-- Witness for C2 (amended) at the empty event sequence. -/
theorem c2_witness :
    initState.obs.global_counts.focused_loading_pages ≤
      initState.obs.global_counts.visible_loading_pages ∧
    initState.obs.global_counts.visible_loading_pages ≤
      initState.obs.global_counts.loading_pages :=
  c2_invariant_of_focus_implies_visible [] initState rfl
    (by intro pg hmem; simp [initState] at hmem)
